import Mathlib

/- Verification of the hydration logic of ThirstIQ, a shallow embedding of
project/src/components/Dashboard.tsx. Strings are modelled as lists of
characters, JavaScript numbers on the integer-valued paths as Int, and the
one genuinely fractional computation (the progress percentage) as an exact
rational. -/

namespace ThirstIQ

/-- Characters matched by the JavaScript regex class [a-zA-Z]. -/
def isAsciiLetter (c : Char) : Bool :=
  (65 ≤ c.toNat && c.toNat ≤ 90) || (97 ≤ c.toNat && c.toNat ≤ 122)

/-- Characters matched by the JavaScript regex class \d, the digits 0-9. -/
def isDigitChar (c : Char) : Bool := 48 ≤ c.toNat && c.toNat ≤ 57

/-- Characters matched by the JavaScript whitespace class \s, which is also
the set stripped by String.prototype.trim: tab through carriage return,
space, and the Unicode space separators, line separators and BOM. -/
def isJsSpace (c : Char) : Bool :=
  (9 ≤ c.toNat && c.toNat ≤ 13) || c.toNat = 32 || c.toNat = 160 || c.toNat = 5760 ||
  (8192 ≤ c.toNat && c.toNat ≤ 8202) || c.toNat = 8232 || c.toNat = 8233 ||
  c.toNat = 8239 || c.toNat = 8287 || c.toNat = 12288 || c.toNat = 65279

/-- JavaScript String.prototype.trim on a list of characters. -/
def trimChars (l : List Char) : List Char :=
  (((l.dropWhile isJsSpace).reverse).dropWhile isJsSpace).reverse

/-- Value of a decimal digit string, as parseInt computes it on the match of
the regex \d+ (such a match consists of digits only); the empty list yields
0, matching the parseInt fallback on the literal zero string at line 175. -/
def digitsToNat (l : List Char) : Nat :=
  l.foldl (fun a c => 10 * a + (c.toNat - 48)) 0

/-- First maximal run of digits in the string: the match of the regex \d+
used at line 175 of Dashboard.tsx, or the empty list when there is none. -/
def firstDigitRun : List Char → List Char
  | [] => []
  | c :: rest =>
      if isDigitChar c then c :: rest.takeWhile isDigitChar else firstDigitRun rest

/-- Whether the list starts with one of the three unit tokens of the
alternation (ml|ML|mL) in the regex at line 174 of Dashboard.tsx. -/
def unitTokenAt : List Char → Bool
  | 'm' :: 'l' :: _ => true
  | 'M' :: 'L' :: _ => true
  | 'm' :: 'L' :: _ => true
  | _ => false

/-- Unanchored match of the volume regex \d+\s*(ml|ML|mL) from line 174 of
Dashboard.tsx: somewhere in the string, a run of digits, then optional
whitespace, then one of the three unit tokens. Consuming the digit run and
the whitespace greedily is complete here because after them the regex needs
a letter, which neither class contains. -/
def volumeMatch : List Char → Bool
  | [] => false
  | c :: rest =>
      (isDigitChar c && unitTokenAt ((rest.dropWhile isDigitChar).dropWhile isJsSpace))
      || volumeMatch rest

/-- Amount extracted at line 175 of Dashboard.tsx: parseInt of the first
digit run, defaulting to 0 when no digit run exists. -/
def parsedAmount (l : List Char) : Nat := digitsToNat (firstDigitRun l)

/-- Anchored match of the location regex at line 169 of Dashboard.tsx,
matching a nonempty string of letters and whitespace only. -/
def isLocationText (l : List Char) : Bool :=
  !l.isEmpty && l.all (fun c => isAsciiLetter c || isJsSpace c)

/-- Result of the chat intent classification performed by handleSendMessage. -/
inductive Intent where
  | ignored : Intent
  | location : List Char → Intent
  | volumeLog : Nat → Intent
  | unrecognized : Intent
deriving DecidableEq

/-- Chat intent classification of handleSendMessage (Dashboard.tsx lines
157-186): trim the input; empty input is ignored; text of letters and
whitespace only is a location; otherwise a digits-then-unit match is a
volume log whose amount is the first digit run; otherwise unrecognized. -/
def classify (input : List Char) : Intent :=
  let t := trimChars input
  if t.isEmpty then .ignored
  else if isLocationText t then .location t
  else if volumeMatch t then .volumeLog (parsedAmount t)
  else .unrecognized

/-- Weather observation as stored by fetchWeather (Dashboard.tsx lines
94-98): temperature rounded to an integer by the fetch handler, humidity an
integer percentage. The display-only description field is omitted because no
logic reads it. -/
structure WeatherData where
  temp : Int
  humidity : Int
deriving DecidableEq

/-- Goal computation of calculateHydrationNeeds (Dashboard.tsx lines
126-136): base 2000, plus (temp - 25) * 50 when temp > 25, plus
(humidity - 60) * 20 when humidity > 60. The final Math.round of the source
is the identity on these integer values. -/
def computeGoal (w : WeatherData) : Int :=
  let base : Int := 2000
  let afterTemp := if w.temp > 25 then base + (w.temp - 25) * 50 else base
  if w.humidity > 60 then afterTemp + (w.humidity - 60) * 20 else afterTemp

/-- JavaScript Math.round of the quotient a / b for b > 0: the floor of
a / b + 1/2, computed on integers. -/
def jsRoundDiv (a b : Int) : Int := (2 * a + b) / (2 * b)

/-- Scheduled intake task, the WaterTask interface of Dashboard.tsx. Time is
stored as minutes after the midnight of the scheduling day, the quantity the
sort comparator effectively compares since all tasks share that day. -/
structure WaterTask where
  id : List Char
  time : Nat
  amount : Int
  completed : Bool
deriving DecidableEq

/-- Identifier of the i-th generated task, the template string at line 40. -/
def taskId (i : Nat) : List Char :=
  't' :: 'a' :: 's' :: 'k' :: '-' :: Nat.toDigits 10 i

/-- Task batch generation, generateTasks of Dashboard.tsx (lines 28-48):
tasksCount = 8, each task carries amount Math.round of goal / 8, the i-th
task is scheduled at hour 9 + the floor of i * (12 / 8) with a randomized
minute (Math.random is modelled by the parameter minutes; Date.setMinutes
truncates its fractional argument, so the source produces minutes 0-58), and
the batch is sorted ascending by time with a stable sort. -/
def generateTasks (dailyGoal : Int) (minutes : Nat → Nat) : List WaterTask :=
  let amountPerTask := jsRoundDiv dailyGoal 8
  let tasks := (List.range 8).map (fun i =>
    { id := taskId i
      time := (9 + (i * 12) / 8) * 60 + minutes i
      amount := amountPerTask
      completed := false : WaterTask })
  tasks.mergeSort (fun a b => decide (a.time ≤ b.time))

/-- Task completion, handleTaskCompletion of Dashboard.tsx (lines 142-153),
rendered as a pure function: it returns the updated batch (every task whose
id matches is returned with completed set to true) and the intake delta
accumulated by the setWaterIntake calls, namely the amount of every matching
task that was not yet completed. -/
def completeTask : List WaterTask → List Char → List WaterTask × Int
  | [], _ => ([], 0)
  | t :: rest, tid =>
      let r := completeTask rest tid
      if t.id = tid then
        ({ t with completed := true } :: r.1,
         (if t.completed then 0 else t.amount) + r.2)
      else
        (t :: r.1, r.2)

/-- Chat transcript entries, abstracted to which message template of
Dashboard.tsx is rendered together with its numeric payloads. -/
inductive Msg where
  | user : List Char → Msg
  | greetingIntro : Msg
  | greetingAskLocation : Msg
  | weatherReport : List Char → WeatherData → Msg
  | recommendation : Int → Msg
  | fetchFailAuth : Msg
  | fetchFailNotFound : Msg
  | fetchFailUnavailable : Msg
  | retryPrompt : Msg
  | goalReached : Int → Msg
  | progressReport : Int → Int → Int → Msg
  | help : Msg
deriving DecidableEq

/-- Transient toast notifications of Dashboard.tsx. -/
inductive Toast where
  | invalidApiKey : Toast
  | locationNotFound : Toast
  | fetchFailed : Toast
  | taskDone : Int → Toast
deriving DecidableEq

/-- Outcome of the weather fetch for one location submission; the three
failure constructors correspond to HTTP status 401, status 404, and any
other axios error (Dashboard.tsx lines 106-118). -/
inductive FetchResult where
  | success : WeatherData → FetchResult
  | unauthorized : FetchResult
  | notFound : FetchResult
  | unavailable : FetchResult
deriving DecidableEq

/-- Component state of Dashboard relevant to the hydration logic. -/
structure SessionState where
  messages : List Msg
  weather : Option WeatherData
  waterIntake : Int
  dailyGoal : Int
  waterTasks : List WaterTask
  currentLocation : List Char
  toasts : List Toast
deriving DecidableEq

/-- Initial state of Dashboard (useState at lines 51-58, initial greeting
messages of the mount effect at lines 69-72). -/
def initState : SessionState :=
  { messages := [.greetingIntro, .greetingAskLocation]
    weather := none
    waterIntake := 0
    dailyGoal := 2000
    waterTasks := []
    currentLocation := []
    toasts := [] }

/-- Environment of one event: the outcome the weather service would return
and the randomized minute values Math.random would supply. -/
structure Env where
  fetch : FetchResult
  minutes : Nat → Nat

/-- One chat submission: handleSendMessage of Dashboard.tsx (lines 155-187)
together with fetchWeather (83-123) and calculateHydrationNeeds (125-140).
Empty trimmed input returns the state unchanged; otherwise the user message
is appended and the branch chosen by the classification runs. A location
triggers the fetch: success stores the observation and location, recomputes
the goal and the task batch and appends the recommendation and the weather
report (in that order, since calculateHydrationNeeds runs before the report
at line 103); each failure adds its toast, its failure message and the retry
prompt of line 172. A volume log adds the parsed amount to waterIntake and
compares the exact value of ((waterIntake + amount) / dailyGoal) * 100
against 100, appending the goal message or the progress message with the
rounded percentage. Anything else appends the help message. -/
def handleSendMessage (env : Env) (s : SessionState) (input : List Char) : SessionState :=
  match classify input with
  | .ignored => s
  | .location t =>
      let s1 := { s with messages := s.messages ++ [Msg.user t] }
      match env.fetch with
      | .success w =>
          let goal := computeGoal w
          { s1 with
              weather := some w
              currentLocation := t
              dailyGoal := goal
              waterTasks := generateTasks goal env.minutes
              messages := s1.messages ++ [Msg.recommendation goal, Msg.weatherReport t w] }
      | .unauthorized =>
          { s1 with
              toasts := s1.toasts ++ [Toast.invalidApiKey]
              messages := s1.messages ++ [Msg.fetchFailAuth, Msg.retryPrompt] }
      | .notFound =>
          { s1 with
              toasts := s1.toasts ++ [Toast.locationNotFound]
              messages := s1.messages ++ [Msg.fetchFailNotFound, Msg.retryPrompt] }
      | .unavailable =>
          { s1 with
              toasts := s1.toasts ++ [Toast.fetchFailed]
              messages := s1.messages ++ [Msg.fetchFailUnavailable, Msg.retryPrompt] }
  | .volumeLog a =>
      let s1 := { s with messages := s.messages ++ [Msg.user (trimChars input)] }
      let amount : Int := (a : Int)
      let newIntake := s.waterIntake + amount
      let progress : ℚ := ((newIntake : ℚ) / (s.dailyGoal : ℚ)) * 100
      if 100 ≤ progress then
        { s1 with
            waterIntake := newIntake
            messages := s1.messages ++ [Msg.goalReached s.dailyGoal] }
      else
        { s1 with
            waterIntake := newIntake
            messages := s1.messages ++ [Msg.progressReport amount newIntake ⌊progress + 1/2⌋] }
  | .unrecognized =>
      { s with messages := s.messages ++ [Msg.user (trimChars input), Msg.help] }

/-- One task completion click, handleTaskCompletion of Dashboard.tsx (lines
142-153), at the state level: updates the batch, adds the delta to
waterIntake, and shows a success toast for every matching task that was not
yet completed. -/
def handleTaskCompletion (s : SessionState) (tid : List Char) : SessionState :=
  let r := completeTask s.waterTasks tid
  { s with
      waterTasks := r.1
      waterIntake := s.waterIntake + r.2
      toasts := s.toasts ++
        (s.waterTasks.filter (fun t => decide (t.id = tid) && !t.completed)).map
          (fun t => Toast.taskDone t.amount) }

/-- User events that drive a session. -/
inductive Event where
  | chat : List Char → Event
  | taskClick : List Char → Event

/-- One step of the session: dispatch of a user event to its handler. -/
def step (env : Env) (s : SessionState) (e : Event) : SessionState :=
  match e with
  | .chat input => handleSendMessage env s input
  | .taskClick tid => handleTaskCompletion s tid

/-- State reached from the initial state by a sequence of events, each
paired with its environment. -/
def run (trace : List (Env × Event)) : SessionState :=
  trace.foldl (fun s p => step p.1 s p.2) initState

/-- C1: computeGoal returns 2000 plus a surcharge of (t - 25) * 50 when the
temperature t exceeds 25 and a surcharge of (h - 60) * 20 when the humidity
h exceeds 60; in particular it maps (25, 60) to 2000, (35, 60) to 2500 and
(25, 80) to 2400. -/
theorem computeGoal_spec :
    (∀ w : WeatherData,
      computeGoal w = 2000 + (if 25 < w.temp then (w.temp - 25) * 50 else 0) +
        (if 60 < w.humidity then (w.humidity - 60) * 20 else 0)) ∧
    computeGoal ⟨25, 60⟩ = 2000 ∧
    computeGoal ⟨35, 60⟩ = 2500 ∧
    computeGoal ⟨25, 80⟩ = 2400 := by
  refine ⟨?_, by decide, by decide, by decide⟩
  intro w
  simp only [computeGoal]
  split_ifs <;> omega

theorem completeTask_delta_of_all_completed (tid : List Char) :
    ∀ tasks : List WaterTask, (∀ t ∈ tasks, t.id = tid → t.completed = true) →
      completeTask tasks tid = (tasks, 0) := by
  intro tasks
  induction tasks with
  | nil => intro _; rfl
  | cons t rest ih =>
      intro h
      have hrest := ih (fun u hu => h u (List.mem_cons_of_mem t hu))
      by_cases hid : t.id = tid
      · have hc : t.completed = true := h t (List.mem_cons_self t rest) hid
        subst hid
        have ht : { t with completed := true } = t := by
          cases t; simp_all
        simp [completeTask, hrest, hc, ht]
      · simp [completeTask, hid, hrest]

theorem completeTask_matching_completed (tid : List Char) :
    ∀ tasks : List WaterTask, ∀ t ∈ (completeTask tasks tid).1,
      t.id = tid → t.completed = true := by
  intro tasks
  induction tasks with
  | nil => intro t ht; simp [completeTask] at ht
  | cons u rest ih =>
      intro t ht hid
      by_cases hu : u.id = tid
      · simp only [completeTask, hu, if_pos] at ht
        rcases List.mem_cons.mp ht with h | h
        · subst h; rfl
        · exact ih t h hid
      · simp only [completeTask, hu, if_neg, not_false_iff] at ht
        rcases List.mem_cons.mp ht with h | h
        · subst h; exact absurd hid hu
        · exact ih t h hid

/-- C4: completeTask is idempotent and safe on missing ids: a missing id
leaves the batch unchanged with delta 0, a batch whose matching tasks are
all already completed yields delta 0, and a second application on the same
id returns the first result batch with delta 0, so intake is counted at
most once and the completed flag moves false to true exactly once. -/
theorem completeTask_spec (tasks : List WaterTask) (tid : List Char) :
    ((∀ t ∈ tasks, t.id ≠ tid) → completeTask tasks tid = (tasks, 0)) ∧
    ((∀ t ∈ tasks, t.id = tid → t.completed = true) → (completeTask tasks tid).2 = 0) ∧
    completeTask (completeTask tasks tid).1 tid = ((completeTask tasks tid).1, 0) := by
  refine ⟨?_, ?_, ?_⟩
  · intro h
    induction tasks with
    | nil => rfl
    | cons t rest ih =>
        have hid : ¬ t.id = tid := h t (List.mem_cons_self t rest)
        have hrest := ih (fun u hu => h u (List.mem_cons_of_mem t hu))
        simp [completeTask, hid, hrest]
  · intro h
    rw [completeTask_delta_of_all_completed tid tasks h]
  · exact completeTask_delta_of_all_completed tid (completeTask tasks tid).1
      (completeTask_matching_completed tid tasks)

/-- Witness for C4 on concrete one-task batches. -/
theorem completeTask_spec_witness :
    completeTask [(⟨taskId 0, 540, 250, false⟩ : WaterTask)] (taskId 1) =
      ([(⟨taskId 0, 540, 250, false⟩ : WaterTask)], 0) ∧
    (completeTask [(⟨taskId 0, 540, 250, true⟩ : WaterTask)] (taskId 0)).2 = 0 ∧
    completeTask
      (completeTask [(⟨taskId 0, 540, 250, false⟩ : WaterTask)] (taskId 0)).1 (taskId 0) =
      ((completeTask [(⟨taskId 0, 540, 250, false⟩ : WaterTask)] (taskId 0)).1, 0) :=
  ⟨(completeTask_spec [⟨taskId 0, 540, 250, false⟩] (taskId 1)).1 (by decide),
   (completeTask_spec [⟨taskId 0, 540, 250, true⟩] (taskId 0)).2.1 (by decide),
   (completeTask_spec [⟨taskId 0, 540, 250, false⟩] (taskId 0)).2.2⟩

theorem volumeMatch_has_digit :
    ∀ l : List Char, volumeMatch l = true →
      firstDigitRun l ≠ [] ∧ ∃ c ∈ l, isDigitChar c = true := by
  intro l
  induction l with
  | nil => intro h; simp [volumeMatch] at h
  | cons c rest ih =>
      intro h
      by_cases hd : isDigitChar c = true
      · exact ⟨by simp [firstDigitRun, hd], c, List.mem_cons_self c rest, hd⟩
      · have hrest : volumeMatch rest = true := by
          have hd2 : isDigitChar c = false := Bool.eq_false_iff.mpr hd
          simpa [volumeMatch, hd2] using h
        obtain ⟨h1, c2, hc2, hc2d⟩ := ih hrest
        have hd2 : isDigitChar c = false := Bool.eq_false_iff.mpr hd
        exact ⟨by simpa [firstDigitRun, hd2] using h1,
          c2, List.mem_cons_of_mem c hc2, hc2d⟩

/-- C10: whenever the volume regex matches, the string holds at least one
digit, so the first digit run is nonempty, the logged amount is its value,
and the parseInt fallback to 0 is unreachable. -/
theorem volumeMatch_firstDigitRun (l : List Char) (h : volumeMatch l = true) :
    firstDigitRun l ≠ [] ∧ (∃ c ∈ l, isDigitChar c = true) ∧
    parsedAmount l = digitsToNat (firstDigitRun l) := by
  obtain ⟨h1, h2⟩ := volumeMatch_has_digit l h
  exact ⟨h1, h2, rfl⟩

/-- Witness for C10 at the input 250ml. -/
theorem volumeMatch_firstDigitRun_witness :
    firstDigitRun "250ml".data ≠ [] ∧
    (∃ c ∈ "250ml".data, isDigitChar c = true) ∧
    parsedAmount "250ml".data = digitsToNat (firstDigitRun "250ml".data) :=
  volumeMatch_firstDigitRun "250ml".data (by decide)

theorem generateTasks_eq (g : Int) (m : Nat → Nat) (hm : ∀ i, m i < 60) :
    generateTasks g m =
      [⟨taskId 0, 540 + m 0, jsRoundDiv g 8, false⟩,
       ⟨taskId 1, 600 + m 1, jsRoundDiv g 8, false⟩,
       ⟨taskId 2, 720 + m 2, jsRoundDiv g 8, false⟩,
       ⟨taskId 3, 780 + m 3, jsRoundDiv g 8, false⟩,
       ⟨taskId 4, 900 + m 4, jsRoundDiv g 8, false⟩,
       ⟨taskId 5, 960 + m 5, jsRoundDiv g 8, false⟩,
       ⟨taskId 6, 1080 + m 6, jsRoundDiv g 8, false⟩,
       ⟨taskId 7, 1140 + m 7, jsRoundDiv g 8, false⟩] := by
  have h0 := hm 0
  have h1 := hm 1
  have h2 := hm 2
  have h3 := hm 3
  have h4 := hm 4
  have h5 := hm 5
  have h6 := hm 6
  have h7 := hm 7
  simp only [generateTasks]
  rw [show List.range 8 = [0, 1, 2, 3, 4, 5, 6, 7] from rfl]
  simp only [List.map_cons, List.map_nil]
  rw [List.mergeSort_of_sorted (by
    simp [List.pairwise_cons, decide_eq_true_eq]
    omega)]

/-- C2: for every integer goal and every choice of randomized minutes the
generated batch has exactly 8 tasks, each not completed and carrying the
rounded amount goal / 8, the batch is ascending by scheduled time, and the
amounts sum to within 8 milliliters of the goal. -/
theorem generateTasks_spec (g : Int) (m : Nat → Nat) (hm : ∀ i, m i < 60) :
    (generateTasks g m).length = 8 ∧
    (∀ t ∈ generateTasks g m, t.completed = false ∧ t.amount = jsRoundDiv g 8) ∧
    (generateTasks g m).Pairwise (fun a b => a.time ≤ b.time) ∧
    g - 8 ≤ ((generateTasks g m).map WaterTask.amount).sum ∧
    ((generateTasks g m).map WaterTask.amount).sum ≤ g + 8 := by
  have h0 := hm 0
  have h1 := hm 1
  have h2 := hm 2
  have h3 := hm 3
  have h4 := hm 4
  have h5 := hm 5
  have h6 := hm 6
  have h7 := hm 7
  rw [generateTasks_eq g m hm]
  refine ⟨rfl, ?_, ?_, ?_, ?_⟩
  · intro t ht
    simp only [List.mem_cons, List.not_mem_nil, or_false] at ht
    rcases ht with rfl | rfl | rfl | rfl | rfl | rfl | rfl | rfl <;> exact ⟨rfl, rfl⟩
  · simp [List.pairwise_cons]
    omega
  · norm_num [List.sum_cons, jsRoundDiv]
    omega
  · norm_num [List.sum_cons, jsRoundDiv]
    omega

/-- Witness for C2 at goal 2000 with all minutes 0. -/
theorem generateTasks_spec_witness :
    (generateTasks 2000 (fun _ => 0)).length = 8 ∧
    (∀ t ∈ generateTasks 2000 (fun _ => 0),
      t.completed = false ∧ t.amount = jsRoundDiv 2000 8) ∧
    (generateTasks 2000 (fun _ => 0)).Pairwise (fun a b => a.time ≤ b.time) ∧
    (2000 : Int) - 8 ≤ ((generateTasks 2000 (fun _ => 0)).map WaterTask.amount).sum ∧
    ((generateTasks 2000 (fun _ => 0)).map WaterTask.amount).sum ≤ (2000 : Int) + 8 :=
  generateTasks_spec 2000 (fun _ => 0) (fun i => (by decide : (0 : Nat) < 60))

/-- C7: for every goal and every choice of randomized minutes the hour
components of the generated batch are 9, 10, 12, 13, 15, 16, 18, 19, the
i-th being 9 plus the floor of i * 12 / 8, and the batch is ascending. -/
theorem generateTasks_hours (g : Int) (m : Nat → Nat) (hm : ∀ i, m i < 60) :
    (generateTasks g m).map (fun t => t.time / 60) = [9, 10, 12, 13, 15, 16, 18, 19] ∧
    (∀ i, i < 8 →
      ((generateTasks g m).map (fun t => t.time / 60)).getD i 0 = 9 + (i * 12) / 8) ∧
    (generateTasks g m).Pairwise (fun a b => a.time ≤ b.time) := by
  have h0 := hm 0
  have h1 := hm 1
  have h2 := hm 2
  have h3 := hm 3
  have h4 := hm 4
  have h5 := hm 5
  have h6 := hm 6
  have h7 := hm 7
  have hmap : (generateTasks g m).map (fun t => t.time / 60) =
      [9, 10, 12, 13, 15, 16, 18, 19] := by
    rw [generateTasks_eq g m hm]
    simp only [List.map_cons, List.map_nil, List.cons.injEq, and_true]
    omega
  refine ⟨hmap, ?_, ?_⟩
  · intro i hi
    rw [hmap]
    interval_cases i <;> rfl
  · rw [generateTasks_eq g m hm]
    simp [List.pairwise_cons]
    omega

/-- Witness for C7 at goal 2450 with all minutes 30. -/
theorem generateTasks_hours_witness :
    (generateTasks 2450 (fun _ => 30)).map (fun t => t.time / 60) =
      [9, 10, 12, 13, 15, 16, 18, 19] ∧
    (∀ i, i < 8 →
      ((generateTasks 2450 (fun _ => 30)).map (fun t => t.time / 60)).getD i 0 =
        9 + (i * 12) / 8) ∧
    (generateTasks 2450 (fun _ => 30)).Pairwise (fun a b => a.time ≤ b.time) :=
  generateTasks_hours 2450 (fun _ => 30) (fun i => (by decide : (30 : Nat) < 60))

theorem dropWhile_append_of_forall (p : Char → Bool) :
    ∀ xs ys : List Char, (∀ c ∈ xs, p c = true) →
      List.dropWhile p (xs ++ ys) = List.dropWhile p ys := by
  intro xs
  induction xs with
  | nil => intro ys _; rfl
  | cons c rest ih =>
      intro ys h
      have hc : p c = true := h c (List.mem_cons_self c rest)
      simp only [List.cons_append, List.dropWhile_cons, hc, if_pos]
      exact ih ys (fun u hu => h u (List.mem_cons_of_mem c hu))

theorem isJsSpace_not_digit {c : Char} (h : isJsSpace c = true) : isDigitChar c = false := by
  simp [isJsSpace, isDigitChar] at *
  omega

theorem unitTokenAt_of_unit (u q : List Char)
    (hu : u = ['m', 'l'] ∨ u = ['M', 'L'] ∨ u = ['m', 'L']) :
    unitTokenAt (u ++ q) = true := by
  rcases hu with rfl | rfl | rfl <;> rfl

theorem volumeMatch_of_decomp :
    ∀ p ds ws u q : List Char, ds ≠ [] →
      (∀ c ∈ ds, isDigitChar c = true) → (∀ c ∈ ws, isJsSpace c = true) →
      (u = ['m', 'l'] ∨ u = ['M', 'L'] ∨ u = ['m', 'L']) →
      volumeMatch (p ++ ds ++ ws ++ u ++ q) = true := by
  intro p
  induction p with
  | nil =>
      intro ds ws u q hds hdsall hws hu
      obtain ⟨d, ds2, rfl⟩ : ∃ d ds2, ds = d :: ds2 := by
        cases ds with
        | nil => exact absurd rfl hds
        | cons d ds2 => exact ⟨d, ds2, rfl⟩
      have hd : isDigitChar d = true := hdsall d (List.mem_cons_self d ds2)
      have key : ((ds2 ++ (ws ++ (u ++ q))).dropWhile isDigitChar).dropWhile isJsSpace
          = u ++ q := by
        rw [dropWhile_append_of_forall isDigitChar ds2 (ws ++ (u ++ q))
          (fun c hc => hdsall c (List.mem_cons_of_mem d hc))]
        have h2 : (ws ++ (u ++ q)).dropWhile isDigitChar = ws ++ (u ++ q) := by
          cases ws with
          | nil =>
              simp only [List.nil_append]
              rcases hu with rfl | rfl | rfl <;>
                simp [List.dropWhile_cons,
                  (by decide : isDigitChar 'm' = false),
                  (by decide : isDigitChar 'M' = false)]
          | cons cw ws2 =>
              have hw : isDigitChar cw = false :=
                isJsSpace_not_digit (hws cw (List.mem_cons_self cw ws2))
              simp [List.dropWhile_cons, hw]
        rw [h2, dropWhile_append_of_forall isJsSpace ws (u ++ q) hws]
        rcases hu with rfl | rfl | rfl <;>
          simp [List.dropWhile_cons,
            (by decide : isJsSpace 'm' = false),
            (by decide : isJsSpace 'M' = false)]
      have goal2 : volumeMatch (d :: (ds2 ++ (ws ++ (u ++ q)))) = true := by
        simp [volumeMatch, key, hd, unitTokenAt_of_unit u q hu]
      simpa [List.append_assoc] using goal2
  | cons c p2 ih =>
      intro ds ws u q hds hdsall hws hu
      have hrec : volumeMatch (p2 ++ (ds ++ (ws ++ (u ++ q)))) = true := by
        simpa [List.append_assoc] using ih ds ws u q hds hdsall hws hu
      have goal2 : volumeMatch (c :: (p2 ++ (ds ++ (ws ++ (u ++ q))))) = true := by
        simp [volumeMatch, hrec]
      simpa [List.append_assoc] using goal2

theorem classify_eq_volumeLog (input : List Char)
    (hnl : isLocationText (trimChars input) = false)
    (hv : volumeMatch (trimChars input) = true) :
    classify input = .volumeLog (parsedAmount (trimChars input)) := by
  have hne : (trimChars input).isEmpty = false := by
    cases h : trimChars input with
    | nil => rw [h] at hv; simp [volumeMatch] at hv
    | cons a b => rfl
  simp [classify, hne, hnl, hv]

theorem classify_eq_location (input : List Char)
    (hloc : isLocationText (trimChars input) = true) :
    classify input = .location (trimChars input) := by
  have hne : (trimChars input).isEmpty = false := by
    cases h : trimChars input with
    | nil => rw [h] at hloc; simp [isLocationText] at hloc
    | cons a b => rfl
  simp [classify, hne, hloc]

/-- C3 counterexample: the input 250Ml contains the digit run 250 followed,
case-insensitively, by the unit token ml, yet the code classifies it as
unrecognized rather than as the volume log of 250, because the regex
alternation (ml|ML|mL) does not include the casing Ml. -/
theorem classify_claim_counterexample :
    classify "250Ml".data = Intent.unrecognized ∧
    classify "250Ml".data ≠ Intent.volumeLog 250 := by
  decide

/-- C3 (amended): classify returns VolumeLog for every trimmed non-empty
input that is not letters-and-whitespace-only and contains a digit run
followed, with only whitespace in between, by one of the exact unit tokens
ml, ML or mL; the amount is the first digit run of the string parsed as an
integer (0 when there is none), so classify of 250ml is VolumeLog 250 and
classify of drink 250 ml now is VolumeLog 250. -/
theorem classify_volume_amended (l p ds ws u q : List Char)
    (hdecomp : trimChars l = p ++ ds ++ ws ++ u ++ q)
    (hds : ds ≠ [])
    (hdsall : ∀ c ∈ ds, isDigitChar c = true)
    (hws : ∀ c ∈ ws, isJsSpace c = true)
    (hu : u = ['m', 'l'] ∨ u = ['M', 'L'] ∨ u = ['m', 'L'])
    (hnl : isLocationText (trimChars l) = false) :
    classify l = .volumeLog (digitsToNat (firstDigitRun (trimChars l))) ∧
    classify "250ml".data = .volumeLog 250 ∧
    classify "drink 250 ml now".data = .volumeLog 250 := by
  refine ⟨?_, by decide, by decide⟩
  have hv : volumeMatch (trimChars l) = true := by
    rw [hdecomp]
    exact volumeMatch_of_decomp p ds ws u q hds hdsall hws hu
  exact classify_eq_volumeLog l hnl hv

/-- Witness for the amended C3 at the input drink 250 ml now. -/
theorem classify_volume_amended_witness :
    classify "drink 250 ml now".data =
      .volumeLog (digitsToNat (firstDigitRun (trimChars "drink 250 ml now".data))) ∧
    classify "250ml".data = .volumeLog 250 ∧
    classify "drink 250 ml now".data = .volumeLog 250 :=
  classify_volume_amended "drink 250 ml now".data "drink ".data "250".data
    " ".data "ml".data " now".data (by decide) (by decide) (by decide) (by decide)
    (Or.inl (by decide)) (by decide)

/-- C5: a failed weather fetch (unauthorized, not found, or unavailable)
leaves RunningIntake, HydrationGoal, the task batch, the stored weather and
the current location unchanged, producing only the user echo, a failure
message, the retry prompt, and one toast notification. -/
theorem fetchFailure_spec (env : Env) (s : SessionState) (input : List Char)
    (hloc : isLocationText (trimChars input) = true)
    (hfail : env.fetch = .unauthorized ∨ env.fetch = .notFound ∨ env.fetch = .unavailable) :
    (handleSendMessage env s input).waterIntake = s.waterIntake ∧
    (handleSendMessage env s input).dailyGoal = s.dailyGoal ∧
    (handleSendMessage env s input).waterTasks = s.waterTasks ∧
    (handleSendMessage env s input).weather = s.weather ∧
    (handleSendMessage env s input).currentLocation = s.currentLocation ∧
    ∃ failMsg failToast,
      (handleSendMessage env s input).messages =
        s.messages ++ [Msg.user (trimChars input), failMsg, Msg.retryPrompt] ∧
      (handleSendMessage env s input).toasts = s.toasts ++ [failToast] := by
  have hc := classify_eq_location input hloc
  rcases hfail with hf | hf | hf
  · have hs : handleSendMessage env s input =
        { s with
            toasts := s.toasts ++ [Toast.invalidApiKey]
            messages := (s.messages ++ [Msg.user (trimChars input)]) ++
              [Msg.fetchFailAuth, Msg.retryPrompt] } := by
      simp only [handleSendMessage, hc, hf]
    rw [hs]
    exact ⟨rfl, rfl, rfl, rfl, rfl, Msg.fetchFailAuth, Toast.invalidApiKey, by simp, rfl⟩
  · have hs : handleSendMessage env s input =
        { s with
            toasts := s.toasts ++ [Toast.locationNotFound]
            messages := (s.messages ++ [Msg.user (trimChars input)]) ++
              [Msg.fetchFailNotFound, Msg.retryPrompt] } := by
      simp only [handleSendMessage, hc, hf]
    rw [hs]
    exact ⟨rfl, rfl, rfl, rfl, rfl, Msg.fetchFailNotFound, Toast.locationNotFound, by simp, rfl⟩
  · have hs : handleSendMessage env s input =
        { s with
            toasts := s.toasts ++ [Toast.fetchFailed]
            messages := (s.messages ++ [Msg.user (trimChars input)]) ++
              [Msg.fetchFailUnavailable, Msg.retryPrompt] } := by
      simp only [handleSendMessage, hc, hf]
    rw [hs]
    exact ⟨rfl, rfl, rfl, rfl, rfl, Msg.fetchFailUnavailable, Toast.fetchFailed, by simp, rfl⟩

/-- Witness for C5: submitting Paris to a not-found weather service from the
initial state. -/
theorem fetchFailure_spec_witness :
    (handleSendMessage ⟨FetchResult.notFound, fun _ => 0⟩ initState "Paris".data).waterIntake =
      initState.waterIntake ∧
    (handleSendMessage ⟨FetchResult.notFound, fun _ => 0⟩ initState "Paris".data).dailyGoal =
      initState.dailyGoal ∧
    (handleSendMessage ⟨FetchResult.notFound, fun _ => 0⟩ initState "Paris".data).waterTasks =
      initState.waterTasks ∧
    (handleSendMessage ⟨FetchResult.notFound, fun _ => 0⟩ initState "Paris".data).weather =
      initState.weather ∧
    (handleSendMessage ⟨FetchResult.notFound, fun _ => 0⟩ initState
      "Paris".data).currentLocation = initState.currentLocation ∧
    ∃ failMsg failToast,
      (handleSendMessage ⟨FetchResult.notFound, fun _ => 0⟩ initState "Paris".data).messages =
        initState.messages ++ [Msg.user (trimChars "Paris".data), failMsg, Msg.retryPrompt] ∧
      (handleSendMessage ⟨FetchResult.notFound, fun _ => 0⟩ initState "Paris".data).toasts =
        initState.toasts ++ [failToast] :=
  fetchFailure_spec ⟨FetchResult.notFound, fun _ => 0⟩ initState "Paris".data
    (by decide) (Or.inr (Or.inl rfl))

/-- C6: logging a volume adds the parsed amount to RunningIntake; when the
updated intake reaches the goal the congratulation message is appended,
otherwise the progress message whose percentage is the rounded value of
intake / goal * 100; and from the initial state (goal 2000, intake 0)
logging 2000ml triggers the congratulation and leaves intake 2000. -/
theorem volumeLog_spec (env : Env) (s : SessionState) (input : List Char)
    (hnl : isLocationText (trimChars input) = false)
    (hv : volumeMatch (trimChars input) = true)
    (hg : 0 < s.dailyGoal) :
    (handleSendMessage env s input).waterIntake =
      s.waterIntake + (parsedAmount (trimChars input) : Int) ∧
    (s.dailyGoal ≤ s.waterIntake + (parsedAmount (trimChars input) : Int) →
      (handleSendMessage env s input).messages =
        s.messages ++ [Msg.user (trimChars input), Msg.goalReached s.dailyGoal]) ∧
    (s.waterIntake + (parsedAmount (trimChars input) : Int) < s.dailyGoal →
      (handleSendMessage env s input).messages =
        s.messages ++ [Msg.user (trimChars input),
          Msg.progressReport (parsedAmount (trimChars input) : Int)
            (s.waterIntake + (parsedAmount (trimChars input) : Int))
            ⌊((s.waterIntake + (parsedAmount (trimChars input) : Int) : Int) : ℚ) /
              (s.dailyGoal : ℚ) * 100 + 1 / 2⌋]) ∧
    (handleSendMessage env initState ("2000ml".data)).waterIntake = 2000 ∧
    (handleSendMessage env initState ("2000ml".data)).messages =
      initState.messages ++ [Msg.user ("2000ml".data), Msg.goalReached 2000] := by
  have hc := classify_eq_volumeLog input hnl hv
  have hq : (0 : ℚ) < (s.dailyGoal : ℚ) := by exact_mod_cast hg
  have hcond : ((100 : ℚ) ≤
      ((s.waterIntake + (parsedAmount (trimChars input) : Int) : Int) : ℚ) /
        (s.dailyGoal : ℚ) * 100)
      ↔ s.dailyGoal ≤ s.waterIntake + (parsedAmount (trimChars input) : Int) := by
    rw [div_mul_eq_mul_div, le_div_iff₀ hq, mul_comm (100 : ℚ),
      mul_le_mul_right (by norm_num : (0 : ℚ) < 100), Int.cast_le]
  have hc2 : classify "2000ml".data = Intent.volumeLog 2000 := by decide
  refine ⟨?_, ?_, ?_, ?_, ?_⟩
  · simp only [handleSendMessage, hc]
    split_ifs with h <;> rfl
  · intro hle
    simp only [handleSendMessage, hc]
    split_ifs with h
    · simp
    · exact absurd (hcond.mpr hle) h
  · intro hlt
    simp only [handleSendMessage, hc]
    split_ifs with h
    · exact absurd (hcond.mp h) (not_le.mpr hlt)
    · simp
  · simp only [handleSendMessage, hc2]
    split_ifs with h
    · norm_num [initState]
    · exfalso
      apply h
      norm_num [initState]
  · simp only [handleSendMessage, hc2]
    split_ifs with h
    · simp [initState, (by decide : trimChars "2000ml".data = "2000ml".data)]
    · exfalso
      apply h
      norm_num [initState]

/-- Witness for C6: logging 250ml and 2000ml against the initial state. -/
theorem volumeLog_spec_witness :
    (handleSendMessage ⟨FetchResult.unavailable, fun _ => 0⟩ initState
        "250ml".data).waterIntake =
      initState.waterIntake + (parsedAmount (trimChars "250ml".data) : Int) ∧
    (handleSendMessage ⟨FetchResult.unavailable, fun _ => 0⟩ initState
        "250ml".data).messages =
      initState.messages ++ [Msg.user (trimChars "250ml".data),
        Msg.progressReport (parsedAmount (trimChars "250ml".data) : Int)
          (initState.waterIntake + (parsedAmount (trimChars "250ml".data) : Int))
          ⌊((initState.waterIntake + (parsedAmount (trimChars "250ml".data) : Int) :
              Int) : ℚ) / (initState.dailyGoal : ℚ) * 100 + 1 / 2⌋] ∧
    (handleSendMessage ⟨FetchResult.unavailable, fun _ => 0⟩ initState
        ("2000ml".data)).waterIntake = 2000 ∧
    (handleSendMessage ⟨FetchResult.unavailable, fun _ => 0⟩ initState
        ("2000ml".data)).messages =
      initState.messages ++ [Msg.user ("2000ml".data), Msg.goalReached 2000] :=
  have T := volumeLog_spec ⟨FetchResult.unavailable, fun _ => 0⟩ initState "250ml".data
    (by decide) (by decide) (by decide)
  ⟨T.1, T.2.2.1 (by decide), T.2.2.2.1, T.2.2.2.2⟩

/-- C8: empty trimmed input is ignored with no state change and no message;
letters-and-whitespace input classifies as a location and, on fetch success,
stores the observation and location and installs the recomputed goal and
batch; unrecognized input appends only the echo and the help message and
changes nothing else. -/
theorem classify_dispatch_spec (env : Env) (s : SessionState) (input : List Char)
    (w : WeatherData) :
    (trimChars input = [] → handleSendMessage env s input = s) ∧
    (trimChars input ≠ [] →
      (∀ c ∈ trimChars input, isAsciiLetter c = true ∨ isJsSpace c = true) →
      classify input = .location (trimChars input) ∧
      (env.fetch = .success w →
        handleSendMessage env s input =
          { s with
              weather := some w
              currentLocation := trimChars input
              dailyGoal := computeGoal w
              waterTasks := generateTasks (computeGoal w) env.minutes
              messages := (s.messages ++ [Msg.user (trimChars input)]) ++
                [Msg.recommendation (computeGoal w),
                 Msg.weatherReport (trimChars input) w] })) ∧
    (classify input = .unrecognized →
      handleSendMessage env s input =
        { s with messages := s.messages ++ [Msg.user (trimChars input), Msg.help] }) := by
  refine ⟨?_, ?_, ?_⟩
  · intro h
    have hcl : classify input = .ignored := by simp [classify, h]
    simp [handleSendMessage, hcl]
  · intro hne hall
    have hloc : isLocationText (trimChars input) = true := by
      have h1 : (trimChars input).isEmpty = false := by
        cases h : trimChars input with
        | nil => exact absurd h hne
        | cons a b => rfl
      simp only [isLocationText, h1, Bool.not_false, Bool.true_and, List.all_eq_true]
      intro c hc
      simpa [Bool.or_eq_true] using hall c hc
    have hcl := classify_eq_location input hloc
    refine ⟨hcl, fun hf => ?_⟩
    simp only [handleSendMessage, hcl, hf]
  · intro hcl
    simp only [handleSendMessage, hcl]

/-- Witness for C8: an empty line, the location Paris on a successful fetch,
and an unrecognized line, all against the initial state. -/
theorem classify_dispatch_spec_witness :
    handleSendMessage ⟨FetchResult.success ⟨30, 70⟩, fun _ => 0⟩ initState "   ".data =
      initState ∧
    classify "Paris".data = .location (trimChars "Paris".data) ∧
    handleSendMessage ⟨FetchResult.success ⟨30, 70⟩, fun _ => 0⟩ initState "Paris".data =
      { initState with
          weather := some ⟨30, 70⟩
          currentLocation := trimChars "Paris".data
          dailyGoal := computeGoal ⟨30, 70⟩
          waterTasks := generateTasks (computeGoal ⟨30, 70⟩) (fun _ => 0)
          messages := (initState.messages ++ [Msg.user (trimChars "Paris".data)]) ++
            [Msg.recommendation (computeGoal ⟨30, 70⟩),
             Msg.weatherReport (trimChars "Paris".data) ⟨30, 70⟩] } ∧
    handleSendMessage ⟨FetchResult.success ⟨30, 70⟩, fun _ => 0⟩ initState "???".data =
      { initState with
          messages := initState.messages ++ [Msg.user (trimChars "???".data), Msg.help] } :=
  have T := classify_dispatch_spec ⟨FetchResult.success ⟨30, 70⟩, fun _ => 0⟩
    initState "Paris".data ⟨30, 70⟩
  ⟨(classify_dispatch_spec ⟨FetchResult.success ⟨30, 70⟩, fun _ => 0⟩ initState
      "   ".data ⟨30, 70⟩).1 (by decide),
   (T.2.1 (by decide) (by decide)).1,
   (T.2.1 (by decide) (by decide)).2 rfl,
   (classify_dispatch_spec ⟨FetchResult.success ⟨30, 70⟩, fun _ => 0⟩ initState
      "???".data ⟨30, 70⟩).2.2 (by decide)⟩

/-- Invariant of every reachable state: all task amounts are nonnegative. -/
def tasksNonneg (s : SessionState) : Prop := ∀ t ∈ s.waterTasks, 0 ≤ t.amount

theorem computeGoal_ge (w : WeatherData) : 2000 ≤ computeGoal w := by
  simp only [computeGoal]
  split_ifs <;> nlinarith

theorem generateTasks_amount_eq (g : Int) (m : Nat → Nat) :
    ∀ t ∈ generateTasks g m, t.amount = jsRoundDiv g 8 := by
  intro t ht
  simp only [generateTasks] at ht
  rw [(List.mergeSort_perm _ _).mem_iff] at ht
  simp only [List.mem_map, List.mem_range] at ht
  obtain ⟨i, _, rfl⟩ := ht
  rfl

theorem completeTask_preserves_nonneg (tid : List Char) :
    ∀ tasks : List WaterTask, (∀ t ∈ tasks, 0 ≤ t.amount) →
      ∀ t ∈ (completeTask tasks tid).1, 0 ≤ t.amount := by
  intro tasks
  induction tasks with
  | nil => intro _ t ht; simp [completeTask] at ht
  | cons u rest ih =>
      intro h t ht
      have hrest := ih (fun v hv => h v (List.mem_cons_of_mem u hv))
      by_cases hu : u.id = tid
      · simp only [completeTask, hu, if_pos] at ht
        rcases List.mem_cons.mp ht with rfl | hmem
        · exact h u (List.mem_cons_self u rest)
        · exact hrest t hmem
      · simp only [completeTask, hu, if_neg, not_false_iff] at ht
        rcases List.mem_cons.mp ht with rfl | hmem
        · exact h t (List.mem_cons_self t rest)
        · exact hrest t hmem

theorem completeTask_delta_nonneg (tid : List Char) :
    ∀ tasks : List WaterTask, (∀ t ∈ tasks, 0 ≤ t.amount) →
      0 ≤ (completeTask tasks tid).2 := by
  intro tasks
  induction tasks with
  | nil => intro _; simp [completeTask]
  | cons u rest ih =>
      intro h
      have hrest := ih (fun v hv => h v (List.mem_cons_of_mem u hv))
      have hu0 : (0 : Int) ≤ u.amount := h u (List.mem_cons_self u rest)
      by_cases hu : u.id = tid
      · simp only [completeTask, hu, if_pos]
        split_ifs <;> omega
      · simp only [completeTask, hu, if_neg, not_false_iff]
        exact hrest

theorem step_intake_mono (env : Env) (s : SessionState) (e : Event)
    (h : tasksNonneg s) : s.waterIntake ≤ (step env s e).waterIntake := by
  cases e with
  | chat input =>
      simp only [step, handleSendMessage]
      cases hcl : classify input with
      | ignored => simp
      | location t => cases hf : env.fetch <;> simp
      | volumeLog a =>
          dsimp only
          split_ifs <;> simp
      | unrecognized => simp
  | taskClick tid =>
      simp only [step, handleTaskCompletion]
      have := completeTask_delta_nonneg tid s.waterTasks h
      omega

theorem step_preserves_tasksNonneg (env : Env) (s : SessionState) (e : Event)
    (h : tasksNonneg s) : tasksNonneg (step env s e) := by
  cases e with
  | chat input =>
      simp only [step, handleSendMessage]
      cases hcl : classify input with
      | ignored => exact h
      | location t =>
          cases hf : env.fetch with
          | success w =>
              dsimp only
              intro t2 ht2
              rw [generateTasks_amount_eq (computeGoal w) env.minutes t2 ht2]
              have := computeGoal_ge w
              simp only [jsRoundDiv]
              omega
          | unauthorized => exact h
          | notFound => exact h
          | unavailable => exact h
      | volumeLog a =>
          dsimp only
          split_ifs <;> exact h
      | unrecognized => exact h
  | taskClick tid =>
      exact completeTask_preserves_nonneg tid s.waterTasks h

theorem foldl_tasksNonneg :
    ∀ (trace : List (Env × Event)) (s : SessionState), tasksNonneg s →
      tasksNonneg (trace.foldl (fun s p => step p.1 s p.2) s) := by
  intro trace
  induction trace with
  | nil => intro s h; exact h
  | cons p tr ih => intro s h; exact ih _ (step_preserves_tasksNonneg p.1 s p.2 h)

theorem run_tasksNonneg (trace : List (Env × Event)) : tasksNonneg (run trace) :=
  foldl_tasksNonneg trace initState (by intro t ht; simp [initState] at ht)

/-- C9: RunningIntake never decreases across a session: after each event of
any trace the intake is at least its value before that event. -/
theorem run_intake_mono (trace : List (Env × Event)) (n : Nat) :
    (run (trace.take n)).waterIntake ≤ (run (trace.take (n + 1))).waterIntake := by
  have main : ∀ (tr : List (Env × Event)) (s0 : SessionState) (k : Nat), tasksNonneg s0 →
      ((tr.take k).foldl (fun s p => step p.1 s p.2) s0).waterIntake ≤
      ((tr.take (k + 1)).foldl (fun s p => step p.1 s p.2) s0).waterIntake := by
    intro tr
    induction tr with
    | nil => intro s0 k _; simp
    | cons p tr2 ih =>
        intro s0 k hnn
        cases k with
        | zero =>
            simp only [List.take_zero, List.take_succ_cons, List.foldl_nil, List.foldl_cons]
            exact step_intake_mono p.1 s0 p.2 hnn
        | succ k2 =>
            simp only [List.take_succ_cons, List.foldl_cons]
            exact ih (step p.1 s0 p.2) k2 (step_preserves_tasksNonneg p.1 s0 p.2 hnn)
  exact main trace initState n (by intro t ht; simp [initState] at ht)

end ThirstIQ
